import Mathlib

/-!
Verification development for `listToPDF.py`: a script that, for each item of
an input list, fetches translations into a fixed language set, acquires one
image per item (with cache validation and corruption recovery), and emits one
LaTeX table row per item.

The embedding below models the script's pure logic directly and its effectful
parts by explicit state passing:
* the translation provider (`translator.translate`, awaited, may raise) is a
  function `String → String → Except String String`;
* the image crawler (`crawler.crawl`, writes files into the temporary
  directory, may raise) is a function `String → Except String (List (String × Content))`
  returning the files it added to the workspace;
* the filesystem is a structure `FS` holding the destination directory
  (association of item name to the content of `<name>.jpg`) and the transient
  workspace directory (association of file name to content);
* PIL's `Image.open` + `verify` outcome is an abstract predicate
  `valid : Content → Bool` on file contents.
-/

set_option autoImplicit false

namespace ListToPDF

abbrev Content := String

/-- Configured language set, in the fixed source order (lines 25-31):
display code paired with the provider target identifier. -/
def lang_codes : List (String × String) :=
  [("es", "es"), ("ca", "ca"), ("en", "en"), ("fr", "fr"), ("ma", "ar")]

/-- Body of the per-language loop iteration of `obtener_traducciones`
(lines 52-57): the translated text on provider success, the original element
text when the provider raises (the `except` branch). -/
def resolved (translate : String → String → Except String String)
    (elem dest : String) : String :=
  match translate elem dest with
  | Except.ok t => t
  | Except.error _ => elem

/-- Function `obtener_traducciones` (lines 45-58): iterates over `lang_codes`
in order, inserting one key per configured code into the dictionary, with the
per-language `try`/`except` fallback of `resolved`. The Python dictionary in
insertion order is an association list. The Lean function is total: every
provider error is consumed by the `except` branch, so the call never raises. -/
def obtener_traducciones (translate : String → String → Except String String)
    (elem : String) : List (String × String) :=
  lang_codes.map (fun kd => (kd.1, resolved translate elem kd.2))

/-- Function `procesar_traducciones` (lines 60-71): one task per element,
results gathered in element order, then keyed by element. -/
def procesar_traducciones (translate : String → String → Except String String)
    (elements : List String) : List (String × List (String × String)) :=
  elements.map (fun e => (e, obtener_traducciones translate e))

/-! Invocation schedule of the translation provider inside one call of
`obtener_traducciones`. The body is `for key, dest in lang_codes.items():
resultado = await translator.translate(elem, dest=dest)`: each provider call
is awaited to completion before the loop issues the next one, so the schedule
is issue/complete pairs in `lang_codes` order. -/

inductive TrEvent where
  | issue (lang : String)
  | complete (lang : String)
deriving DecidableEq, Repr

/-- Event trace of the awaited per-language loop of `obtener_traducciones`
(lines 51-57): for each configured language in order, the request is issued
and runs to completion before the next one starts. -/
def await_loop_trace : List (String × String) → List TrEvent
  | [] => []
  | kd :: rest => TrEvent.issue kd.2 :: TrEvent.complete kd.2 :: await_loop_trace rest

/-- Provider-invocation trace of one item-level call of `obtener_traducciones`. -/
def obtener_traducciones_trace : List TrEvent :=
  await_loop_trace lang_codes

def isIssue : TrEvent → Bool
  | TrEvent.issue _ => true
  | TrEvent.complete _ => false

/-- Running maximum of the number of in-flight provider requests along a
trace (`cur` requests currently in flight, `m` the maximum seen so far). -/
def maxInFlightAux : List TrEvent → Nat → Nat → Nat
  | [], _, m => m
  | TrEvent.issue _ :: r, cur, m => maxInFlightAux r (cur + 1) (Nat.max m (cur + 1))
  | TrEvent.complete _ :: r, cur, m => maxInFlightAux r (cur - 1) m

/-- Maximum number of provider requests simultaneously in flight in a trace. -/
def maxInFlight (t : List TrEvent) : Nat := maxInFlightAux t 0 0

/-- The languages issued along a trace, in issue order. -/
def issuedLangs (t : List TrEvent) : List String :=
  t.filterMap (fun e => match e with
    | TrEvent.issue l => some l
    | TrEvent.complete _ => none)

/-- Formalisation of the claimed schedule, following the claim's words: every
request is issued before any completes (all languages in flight at once,
joined at a barrier). -/
def allIssuedBeforeAnyComplete : List TrEvent → Bool
  | [] => true
  | TrEvent.issue _ :: r => allIssuedBeforeAnyComplete r
  | TrEvent.complete _ :: r => r.all (fun e => ! isIssue e)

/-! Image acquisition pipeline. -/

/-- Filesystem state visible to the image phase: `dests` is the destination
directory (item name ↦ content of `<name>.jpg`; a key present means the file
exists), `tmp` is the transient workspace `IMG_TMP_DIR` (file name ↦ content). -/
structure FS where
  dests : List (String × Content)
  tmp : List (String × Content)
deriving DecidableEq, Repr

/-- Content of `destino/<k>.jpg` when that file exists (`os.path.exists` +
read), `none` when absent. -/
def lookupD (l : List (String × Content)) (k : String) : Option Content :=
  l.lookup k

/-- Effect of `os.remove` on the destination directory: the entry named `k`
is gone. -/
def removeD (l : List (String × Content)) (k : String) : List (String × Content) :=
  l.filter (fun p => p.1 != k)

/-- Outcome of one `descargar_imagen` call that returned (did not raise):
the returned boolean, the filesystem afterwards, and how many times the
image provider (`crawler.crawl`) was invoked during the call. -/
structure DescargaResult where
  exito : Bool
  fs : FS
  fetches : Nat
deriving DecidableEq, Repr

/-- Function `validar_imagen` (lines 78-88) applied to the content found at a
path (`none` = the path does not exist). `Image.open` on an absent path
raises, and `verify` raises on corrupt content; both land in the `except`
branch returning `False`. The function performs no filesystem mutation, so
the file slot it was given is returned unchanged. -/
def validar_imagen (valid : Content → Bool) (file : Option Content) :
    Bool × Option Content :=
  match file with
  | none => (false, none)
  | some c => (valid c, some c)

/-- Lines 108-125 of `descargar_imagen`: crawl (an exception propagates),
list the workspace, and either commit the first file in sorted order or
report that no image was found. Python tests `if archivos:` before sorting;
matching on the sorted listing is equivalent because the sorted listing is
empty exactly when the listing is. On commit, `shutil.move` places the file's
content at `<nombre>.jpg` (overwriting), `time.sleep(1)` has no state effect,
and the cleanup loop (lines 120-121) removes every file remaining in the
workspace, leaving it empty. -/
def fetch_y_commit (crawl : String → Except String (List (String × Content)))
    (consulta nombre : String) (fs : FS) : Except String DescargaResult :=
  match crawl consulta with
  | Except.error e => Except.error e
  | Except.ok nuevos =>
    match ((fs.tmp ++ nuevos).map Prod.fst).mergeSort (fun a b => decide (a ≤ b)) with
    | [] => Except.ok ⟨false, { fs with tmp := fs.tmp ++ nuevos }, 1⟩
    | m :: _ =>
      match (fs.tmp ++ nuevos).lookup m with
      | none => Except.ok ⟨false, { fs with tmp := fs.tmp ++ nuevos }, 1⟩
      | some c => Except.ok ⟨true, ⟨(nombre, c) :: removeD fs.dests nombre, []⟩, 1⟩

/-- Function `descargar_imagen` (lines 91-125). If `<nombre>.jpg` exists in
the destination directory it is validated: valid short-circuits with `True`
and no crawl; invalid is removed (`os.remove`, line 106) and the pipeline
falls through to the fetch. The second `tmp1.lookup` branch of
`fetch_y_commit` is unreachable (the head of the sorted listing names a file
of the listing); it is kept only to make the function total. -/
def descargar_imagen (valid : Content → Bool)
    (crawl : String → Except String (List (String × Content)))
    (consulta nombre : String) (fs : FS) : Except String DescargaResult :=
  match lookupD fs.dests nombre with
  | some c =>
    if (validar_imagen valid (some c)).1 then
      Except.ok ⟨true, fs, 0⟩
    else
      fetch_y_commit crawl consulta nombre { fs with dests := removeD fs.dests nombre }
  | none => fetch_y_commit crawl consulta nombre fs

/-- The image-phase orchestration loop (lines 128-132): items strictly in
order, `consulta = elem` and `nombre_elemento = elem`; a `False` return only
prints a warning and the loop continues; an exception raised by
`descargar_imagen` is not caught anywhere, so it aborts the loop (and the
run). Records `(elem, exito)` per completed item, threading the filesystem. -/
def image_phase (valid : Content → Bool)
    (crawl : String → Except String (List (String × Content))) :
    List String → FS → Except String (List (String × Bool) × FS)
  | [], fs => Except.ok ([], fs)
  | e :: rest, fs =>
    match descargar_imagen valid crawl e e fs with
    | Except.error err => Except.error err
    | Except.ok r =>
      match image_phase valid crawl rest r.fs with
      | Except.error err => Except.error err
      | Except.ok (tail, fs2) => Except.ok ((e, r.exito) :: tail, fs2)

/-! LaTeX row generation. -/

/-- One generated table row (lines 140-143), cells as data: the image
reference `<elem>.jpg` followed by the five language cells
`tr["es"], tr["ca"], tr["en"], tr["fr"], tr["ma"]` in that fixed order. A
cell is `none` when the record lacks the key (Python's `KeyError`). -/
structure Fila where
  imagen : String
  columnas : List (Option String)
deriving DecidableEq, Repr

/-- Row built for one element from its translation record (lines 140-143). -/
def fila (elem : String) (tr : List (String × String)) : Fila :=
  ⟨elem ++ ".jpg",
   [tr.lookup "es", tr.lookup "ca", tr.lookup "en", tr.lookup "fr", tr.lookup "ma"]⟩

/-- The `latex_rows` accumulation loop (lines 136-143): one row per element,
in element order, each from `translations[elem]` (a missing element key —
impossible for records produced by `procesar_traducciones` — would be
Python's `KeyError`; modelled by the empty record, whose cells are all
`none`). -/
def latex_rows (translations : List (String × List (String × String)))
    (elements : List String) : List Fila :=
  elements.map (fun e => fila e ((translations.lookup e).getD []))

/-! Helper lemmas. -/

theorem lookup_removeD (l : List (String × Content)) (k : String) :
    (removeD l k).lookup k = none := by
  rw [List.lookup_eq_none_iff]
  intro p hp
  have := List.of_mem_filter hp
  simp only [bne_iff_ne, ne_eq] at this ⊢
  exact fun hh => this hh.symm

theorem lookup_some_of_mem_fst (l : List (String × Content)) (m : String)
    (h : m ∈ l.map Prod.fst) : ∃ c, l.lookup m = some c ∧ (m, c) ∈ l := by
  induction l with
  | nil => simp at h
  | cons p rest ih =>
    rcases p with ⟨k, v⟩
    by_cases hk : m = k
    · subst hk
      exact ⟨v, List.lookup_cons_self, List.mem_cons_self _ _⟩
    · simp only [List.map_cons, List.mem_cons] at h
      rcases h with h | h
      · exact absurd h hk
      · obtain ⟨c, hl, hm⟩ := ih h
        refine ⟨c, ?_, List.mem_cons_of_mem _ hm⟩
        rw [List.lookup_cons]
        have hbeq : (m == k) = false := beq_eq_false_iff_ne.mpr hk
        simp [hbeq, hl]

/-- One call of `fetch_y_commit` whose crawl succeeds and leaves a nonempty
workspace listing commits the file whose name is smallest in sorted order and
clears the workspace. -/
theorem fetch_y_commit_nonempty (crawl : String → Except String (List (String × Content)))
    (consulta nombre : String) (fs : FS) (nuevos : List (String × Content))
    (hcrawl : crawl consulta = Except.ok nuevos)
    (hne : fs.tmp ++ nuevos ≠ []) :
    ∃ m c, (m, c) ∈ fs.tmp ++ nuevos ∧
      (fs.tmp ++ nuevos).lookup m = some c ∧
      (∀ n ∈ (fs.tmp ++ nuevos).map Prod.fst, m ≤ n) ∧
      fetch_y_commit crawl consulta nombre fs =
        Except.ok ⟨true, ⟨(nombre, c) :: removeD fs.dests nombre, []⟩, 1⟩ := by
  have hnames : (fs.tmp ++ nuevos).map Prod.fst ≠ [] := by
    simpa using hne
  cases hms : ((fs.tmp ++ nuevos).map Prod.fst).mergeSort (fun a b => decide (a ≤ b)) with
  | nil =>
    exfalso
    apply hnames
    have := congrArg List.length hms
    simpa using this
  | cons m t =>
    have hmem : m ∈ (fs.tmp ++ nuevos).map Prod.fst := by
      have : m ∈ ((fs.tmp ++ nuevos).map Prod.fst).mergeSort (fun a b => decide (a ≤ b)) := by
        rw [hms]; exact List.mem_cons_self m t
      exact List.mem_mergeSort.mp this
    obtain ⟨c, hlook, hmemc⟩ := lookup_some_of_mem_fst _ _ hmem
    refine ⟨m, c, hmemc, hlook, ?_, ?_⟩
    · have hpw : (((fs.tmp ++ nuevos).map Prod.fst).mergeSort
          (fun a b => decide (a ≤ b))).Pairwise (fun a b => decide (a ≤ b) = true) :=
        List.sorted_mergeSort
          (fun a b c hab hbc => by
            simp only [decide_eq_true_eq] at hab hbc ⊢
            exact le_trans hab hbc)
          (fun a b => by
            rcases le_total a b with h | h <;> simp [h])
          ((fs.tmp ++ nuevos).map Prod.fst)
      rw [hms] at hpw
      have hhead := (List.pairwise_cons.mp hpw).1
      intro n hn
      have : n ∈ m :: t := by
        rw [← hms]
        exact List.mem_mergeSort.mpr hn
      rcases List.mem_cons.mp this with rfl | hnt
      · exact le_refl n
      · simpa using hhead n hnt
    · unfold fetch_y_commit
      rw [hcrawl]
      simp only [hms, hlook]

/-- One call of `fetch_y_commit` whose crawl succeeds but leaves an empty
workspace listing reports no image found and changes nothing. -/
theorem fetch_y_commit_empty (crawl : String → Except String (List (String × Content)))
    (consulta nombre : String) (fs : FS)
    (hcrawl : crawl consulta = Except.ok [])
    (htmp : fs.tmp = []) :
    fetch_y_commit crawl consulta nombre fs = Except.ok ⟨false, fs, 1⟩ := by
  rcases fs with ⟨d, t⟩
  dsimp only at htmp
  subst htmp
  unfold fetch_y_commit
  rw [hcrawl]
  simp

theorem removeD_removeD (l : List (String × Content)) (k : String) :
    removeD (removeD l k) k = removeD l k := by
  simp [removeD, List.filter_filter]

/-- Shape analysis of a returning `fetch_y_commit` call: either no image was
found (one fetch, nothing in the workspace afterwards) or one file was
committed to `<nombre>.jpg` and the workspace was cleared. -/
theorem fetch_y_commit_shapes (crawl : String → Except String (List (String × Content)))
    (consulta nombre : String) (fs : FS) (r : DescargaResult)
    (h : fetch_y_commit crawl consulta nombre fs = Except.ok r) :
    (r.exito = false ∧ r.fetches = 1 ∧ r.fs.tmp = [] ∧ r.fs.dests = fs.dests) ∨
    (∃ c, r = ⟨true, ⟨(nombre, c) :: removeD fs.dests nombre, []⟩, 1⟩) := by
  unfold fetch_y_commit at h
  split at h
  next e hc => cases h
  next nuevos hc =>
    split at h
    next hms =>
      have htmp1 : fs.tmp = [] ∧ nuevos = [] := by
        have := congrArg List.length hms
        simpa using this
      simp only [Except.ok.injEq] at h
      subst h
      left
      simp [htmp1.1, htmp1.2]
    next m t hms =>
      split at h
      next hlook =>
        exfalso
        have hmem : m ∈ (fs.tmp ++ nuevos).map Prod.fst := by
          have : m ∈ ((fs.tmp ++ nuevos).map Prod.fst).mergeSort (fun a b => decide (a ≤ b)) := by
            rw [hms]; exact List.mem_cons_self m t
          exact List.mem_mergeSort.mp this
        obtain ⟨c, hl, _⟩ := lookup_some_of_mem_fst _ _ hmem
        rw [hl] at hlook
        cases hlook
      next c hlook =>
        simp only [Except.ok.injEq] at h
        subst h
        right
        exact ⟨c, rfl⟩

/-- Shape analysis of a returning `descargar_imagen` call: a valid cache hit
(zero fetches, filesystem untouched), a fetch that found nothing (one fetch,
workspace empty afterwards), or a commit of one file to `<nombre>.jpg` with
the workspace cleared. -/
theorem descargar_imagen_shapes (valid : Content → Bool)
    (crawl : String → Except String (List (String × Content)))
    (consulta nombre : String) (fs : FS) (r : DescargaResult)
    (h : descargar_imagen valid crawl consulta nombre fs = Except.ok r) :
    (r = ⟨true, fs, 0⟩ ∧ ∃ c, lookupD fs.dests nombre = some c ∧ valid c = true) ∨
    (r.exito = false ∧ r.fetches = 1 ∧ r.fs.tmp = []) ∨
    (∃ c, r = ⟨true, ⟨(nombre, c) :: removeD fs.dests nombre, []⟩, 1⟩) := by
  unfold descargar_imagen at h
  cases hd : lookupD fs.dests nombre with
  | some c =>
    rw [hd] at h
    by_cases hv : valid c
    · simp only [validar_imagen, hv, if_true, Except.ok.injEq] at h
      subst h
      exact Or.inl ⟨rfl, c, rfl, hv⟩
    · simp only [validar_imagen, hv, if_false, Bool.false_eq_true] at h
      rcases fetch_y_commit_shapes _ _ _ _ _ h with h1 | ⟨c1, h1⟩
      · exact Or.inr (Or.inl ⟨h1.1, h1.2.1, h1.2.2.1⟩)
      · refine Or.inr (Or.inr ⟨c1, ?_⟩)
        rw [h1]
        simp [removeD_removeD]
  | none =>
    rw [hd] at h
    rcases fetch_y_commit_shapes _ _ _ _ _ h with h1 | ⟨c1, h1⟩
    · exact Or.inr (Or.inl ⟨h1.1, h1.2.1, h1.2.2.1⟩)
    · exact Or.inr (Or.inr ⟨c1, h1⟩)

/-- The dictionary built by `procesar_traducciones` answers every element of
the input list with that element's translation record. -/
theorem lookup_procesar (translate : String → String → Except String String) :
    ∀ (elements : List String) (e : String), e ∈ elements →
      (procesar_traducciones translate elements).lookup e =
        some (obtener_traducciones translate e) := by
  intro elements
  induction elements with
  | nil => intro e h; simp at h
  | cons e0 rest ih =>
    intro e h
    by_cases he : e = e0
    · subst he
      simp [procesar_traducciones, List.lookup_cons_self]
    · have hmem : e ∈ rest := by
        rcases List.mem_cons.mp h with h1 | h1
        · exact absurd h1 he
        · exact h1
      have hrec := ih e hmem
      simp only [procesar_traducciones, List.map_cons, List.lookup_cons] at hrec ⊢
      have hbeq : (e == e0) = false := beq_eq_false_iff_ne.mpr he
      simp [hbeq]
      exact hrec

/-! Claim theorems. -/

/-- C1: for every item and every language code of the configured language
set, `obtener_traducciones` returns a record containing a key for that code,
and when the translation provider fails for that language the value equals
the original item text. The value is `resolved`, which is the translated
text on provider success and the original element on provider error; the
Lean function is total, reflecting that the per-language `except` swallows
every provider exception, so the call never raises. -/
theorem C1_traduccion_totalidad (translate : String → String → Except String String)
    (elem c d : String) (hc : (c, d) ∈ lang_codes) :
    (obtener_traducciones translate elem).lookup c = some (resolved translate elem d) := by
  simp only [lang_codes, List.mem_cons, List.not_mem_nil, or_false, Prod.mk.injEq] at hc
  rcases hc with ⟨rfl, rfl⟩ | ⟨rfl, rfl⟩ | ⟨rfl, rfl⟩ | ⟨rfl, rfl⟩ | ⟨rfl, rfl⟩ <;> rfl

/-- C1 witness: the language "ma" (provider target "ar") with a provider
that always fails: the record still answers with the original item text. -/
theorem C1_traduccion_totalidad_witness :
    ("ma", "ar") ∈ lang_codes ∧
    (obtener_traducciones (fun _ _ => Except.error "HTTPError") "tomate").lookup "ma" =
      some (resolved (fun _ _ => Except.error "HTTPError") "tomate" "ar") :=
  ⟨by decide,
   C1_traduccion_totalidad (fun _ _ => Except.error "HTTPError") "tomate" "ma" "ar" (by decide)⟩

/-- C4 counterexample: the claim says every configured language's request is
issued at once (all issues precede all completions, unbounded concurrency
across the five languages). On the trace of `obtener_traducciones` — whose
loop awaits each `translator.translate` call before issuing the next — this
schedule predicate is false, and at most one request is ever in flight,
not five. -/
theorem C4_fanout_todo_a_la_vez_cex :
    allIssuedBeforeAnyComplete obtener_traducciones_trace = false ∧
    maxInFlight obtener_traducciones_trace = 1 ∧
    lang_codes.length = 5 := by decide

/-- C4 (amended): within one item-level call the provider is invoked
sequentially, one language after another in `lang_codes` order — each awaited
request completes before the next is issued, so at most one request is in
flight at any time; every configured language is still invoked exactly once
and all results are collected before the record is returned. -/
theorem C4_fanout_secuencial :
    issuedLangs obtener_traducciones_trace = lang_codes.map Prod.snd ∧
    maxInFlight obtener_traducciones_trace = 1 := by decide

/-- C8: for every input ordering of items, the generated row list contains
exactly one row per item, in item-source order, and each row carries the
`<item>.jpg` image reference plus one present (`some`) column for every
configured language, in the fixed `lang_codes` order — independent of which
translations succeeded, since failed languages fall back to the item text
inside `resolved`. -/
theorem C8_filas_ordenadas (translate : String → String → Except String String)
    (elements : List String) :
    latex_rows (procesar_traducciones translate elements) elements =
      elements.map (fun e =>
        ⟨e ++ ".jpg", lang_codes.map (fun kd => some (resolved translate e kd.2))⟩) := by
  unfold latex_rows
  apply List.map_congr_left
  intro e he
  rw [lookup_procesar translate elements e he]
  rfl

/-- C3 counterexample: the claim says `validar_imagen` deletes an invalid
existing file as part of the same call. For an existing path holding content
every verifier rejects, the call returns `false` yet the file is still there
afterwards: the deletion (`os.remove`, line 106) lives in the caller
`descargar_imagen`, not in `validar_imagen`. -/
theorem C3_validador_no_borra_cex :
    (validar_imagen (fun _ => false) (some "corrupta")).1 = false ∧
    (validar_imagen (fun _ => false) (some "corrupta")).2 = some "corrupta" :=
  ⟨rfl, rfl⟩

/-- C3 (amended): `validar_imagen` returns a boolean and performs no
filesystem change — it leaves the file it inspected in place; calls on an
already-absent path return `false` without raising (repeatable at will);
the deletion of an invalid existing destination file is performed by the
caller `descargar_imagen` immediately after validation fails, before the
fetch step runs. -/
theorem C3_validador_sin_efectos (valid : Content → Bool)
    (crawl : String → Except String (List (String × Content)))
    (consulta nombre : String) (fs : FS) (c : Content) (file : Option Content)
    (hdest : lookupD fs.dests nombre = some c)
    (hval : valid c = false) :
    (validar_imagen valid file).2 = file ∧
    validar_imagen valid none = (false, none) ∧
    descargar_imagen valid crawl consulta nombre fs =
      fetch_y_commit crawl consulta nombre { fs with dests := removeD fs.dests nombre } := by
  refine ⟨?_, rfl, ?_⟩
  · cases file <;> rfl
  · unfold descargar_imagen
    rw [hdest]
    simp [validar_imagen, hval]

/-- C3 witness: an invalid cached `kiwi.jpg` — the validator leaves it, the
caller removes it before fetching. -/
theorem C3_validador_sin_efectos_witness :
    (validar_imagen (fun _ => false) (some "mala")).2 = some "mala" ∧
    validar_imagen (fun _ => false) none = (false, none) ∧
    descargar_imagen (fun _ => false) (fun _ => Except.ok []) "kiwi" "kiwi"
        ⟨[("kiwi", "mala")], []⟩ =
      fetch_y_commit (fun _ => Except.ok []) "kiwi" "kiwi"
        ⟨removeD [("kiwi", "mala")] "kiwi", []⟩ :=
  C3_validador_sin_efectos (fun _ => false) (fun _ => Except.ok []) "kiwi" "kiwi"
    ⟨[("kiwi", "mala")], []⟩ "mala" (some "mala") rfl rfl

/-- C5 counterexample: the claim says a second call immediately after a call
that produced `Resolved` performs no additional provider calls. When the
provider fetched a file whose content fails validation, the first call
commits it and returns `True` (the code never validates a fresh download),
and the second call finds the cached file invalid and fetches again:
one additional provider call, not zero. -/
theorem C5_idempotencia_cex :
    descargar_imagen (fun c => c != "mala") (fun _ => Except.ok [("000001.jpg", "mala")])
        "kiwi" "kiwi" ⟨[], []⟩ =
      Except.ok ⟨true, ⟨[("kiwi", "mala")], []⟩, 1⟩ ∧
    descargar_imagen (fun c => c != "mala") (fun _ => Except.ok [("000001.jpg", "mala")])
        "kiwi" "kiwi" ⟨[("kiwi", "mala")], []⟩ =
      Except.ok ⟨true, ⟨[("kiwi", "mala")], []⟩, 1⟩ := by
  refine ⟨?_, ?_⟩ <;>
    simp [descargar_imagen, fetch_y_commit, validar_imagen, lookupD, removeD, List.mergeSort]

/-- C5 (amended): an item whose destination file exists and passes
validation resolves with zero provider invocations and an unchanged
filesystem; consequently a second call immediately after a `Resolved` call
performs no additional provider calls provided the file the first call left
at the destination passes validation. -/
theorem C5_cache_short_circuit (valid : Content → Bool)
    (crawl : String → Except String (List (String × Content)))
    (consulta nombre : String) (fs : FS) :
    (∀ c, lookupD fs.dests nombre = some c → valid c = true →
      descargar_imagen valid crawl consulta nombre fs = Except.ok ⟨true, fs, 0⟩) ∧
    (∀ r, descargar_imagen valid crawl consulta nombre fs = Except.ok r → r.exito = true →
      (∀ c, lookupD r.fs.dests nombre = some c → valid c = true) →
      descargar_imagen valid crawl consulta nombre r.fs = Except.ok ⟨true, r.fs, 0⟩) := by
  have hpart1 : ∀ (fs1 : FS) (c : Content), lookupD fs1.dests nombre = some c →
      valid c = true →
      descargar_imagen valid crawl consulta nombre fs1 = Except.ok ⟨true, fs1, 0⟩ := by
    intro fs1 c hd hv
    unfold descargar_imagen
    rw [hd]
    simp [validar_imagen, hv]
  refine ⟨fun c hd hv => hpart1 fs c hd hv, ?_⟩
  intro r hr hex hcom
  rcases descargar_imagen_shapes _ _ _ _ _ _ hr with ⟨hreq, c, hd, _⟩ | ⟨hfalse, _, _⟩ | ⟨c, hreq⟩
  · subst hreq
    exact hpart1 fs c hd (hcom c hd)
  · rw [hfalse] at hex
    cases hex
  · subst hreq
    have hd : lookupD ((nombre, c) :: removeD fs.dests nombre) nombre = some c :=
      List.lookup_cons_self
    exact hpart1 _ c hd (hcom c hd)

/-- C5 witness: a valid cached file short-circuits with zero fetches, and a
second call after a `Resolved` first call (whose committed file the verifier
accepts) performs zero provider calls. -/
theorem C5_cache_short_circuit_witness :
    descargar_imagen (fun _ => true) (fun _ => Except.ok [("000001.jpg", "x")]) "kiwi" "kiwi"
        ⟨[("kiwi", "buena")], []⟩ =
      Except.ok ⟨true, ⟨[("kiwi", "buena")], []⟩, 0⟩ ∧
    descargar_imagen (fun _ => true) (fun _ => Except.ok [("000001.jpg", "x")]) "kiwi" "kiwi"
        ⟨[("kiwi", "x")], []⟩ =
      Except.ok ⟨true, ⟨[("kiwi", "x")], []⟩, 0⟩ :=
  ⟨(C5_cache_short_circuit (fun _ => true) (fun _ => Except.ok [("000001.jpg", "x")])
      "kiwi" "kiwi" ⟨[("kiwi", "buena")], []⟩).1 "buena" rfl rfl,
   (C5_cache_short_circuit (fun _ => true) (fun _ => Except.ok [("000001.jpg", "x")])
      "kiwi" "kiwi" ⟨[], []⟩).2 ⟨true, ⟨[("kiwi", "x")], []⟩, 1⟩
      (by simp [descargar_imagen, fetch_y_commit, lookupD, removeD, List.mergeSort])
      rfl (fun _ _ => rfl)⟩

/-- C6: when the destination file exists but fails validation, exactly one
fetch (`crawler.crawl`) is triggered, and the invalid file no longer exists
after the call regardless of fetch outcome: it is removed before the fetch,
and afterwards the destination slot is either absent (fetch found nothing)
or holds content taken from a file the fetch placed in the workspace. The
workspace is assumed empty on entry (the documented invariant) and the crawl
is assumed to return rather than raise, as the claim speaks of fetch
success or no result. -/
theorem C6_recuperacion_corrupcion (valid : Content → Bool)
    (crawl : String → Except String (List (String × Content)))
    (consulta nombre : String) (fs : FS) (c : Content) (nuevos : List (String × Content))
    (hdest : lookupD fs.dests nombre = some c)
    (hval : valid c = false)
    (hcrawl : crawl consulta = Except.ok nuevos)
    (htmp : fs.tmp = []) :
    ∃ r, descargar_imagen valid crawl consulta nombre fs = Except.ok r ∧
      r.fetches = 1 ∧
      ((nuevos = [] ∧ r.exito = false ∧ lookupD r.fs.dests nombre = none) ∨
       (nuevos ≠ [] ∧ r.exito = true ∧
         ∃ nm cont, (nm, cont) ∈ nuevos ∧ lookupD r.fs.dests nombre = some cont)) := by
  have hstep : descargar_imagen valid crawl consulta nombre fs =
      fetch_y_commit crawl consulta nombre { fs with dests := removeD fs.dests nombre } := by
    unfold descargar_imagen
    rw [hdest]
    simp [validar_imagen, hval]
  by_cases hnue : nuevos = []
  · subst hnue
    have hfin := fetch_y_commit_empty crawl consulta nombre
      { fs with dests := removeD fs.dests nombre } hcrawl (by simpa using htmp)
    refine ⟨⟨false, { fs with dests := removeD fs.dests nombre }, 1⟩, ?_, rfl,
      Or.inl ⟨rfl, rfl, ?_⟩⟩
    · rw [hstep]; exact hfin
    · exact lookup_removeD fs.dests nombre
  · have hne : ({ fs with dests := removeD fs.dests nombre } : FS).tmp ++ nuevos ≠ [] := by
      simp [htmp, hnue]
    obtain ⟨m, cont, hmemc, _, _, heq⟩ :=
      fetch_y_commit_nonempty crawl consulta nombre _ nuevos hcrawl hne
    refine ⟨_, by rw [hstep]; exact heq, rfl, Or.inr ⟨hnue, rfl, m, cont, ?_, ?_⟩⟩
    · simpa [htmp] using hmemc
    · exact List.lookup_cons_self

/-- C6 witness: a corrupt cached `kiwi.jpg` and a fetch that finds one file:
one fetch, the invalid content replaced by the fetched one. -/
theorem C6_recuperacion_corrupcion_witness :
    ∃ r, descargar_imagen (fun _ => false) (fun _ => Except.ok [("000001.jpg", "x")])
        "kiwi" "kiwi" ⟨[("kiwi", "mala")], []⟩ = Except.ok r ∧
      r.fetches = 1 ∧
      (([("000001.jpg", "x")] = ([] : List (String × Content)) ∧ r.exito = false ∧
          lookupD r.fs.dests "kiwi" = none) ∨
       ([("000001.jpg", "x")] ≠ ([] : List (String × Content)) ∧ r.exito = true ∧
         ∃ nm cont, (nm, cont) ∈ [("000001.jpg", "x")] ∧
           lookupD r.fs.dests "kiwi" = some cont)) :=
  C6_recuperacion_corrupcion (fun _ => false) (fun _ => Except.ok [("000001.jpg", "x")])
    "kiwi" "kiwi" ⟨[("kiwi", "mala")], []⟩ "mala" [("000001.jpg", "x")] rfl rfl rfl rfl

/-- C7: when the destination file is absent, the workspace is empty on entry
and the fetch finds nothing, the pipeline returns `False` (unresolved) and
the filesystem is returned exactly as it was: no file written, the
destination path still absent, the workspace untouched and not cleared — so
a later run starts again from the cache check on unchanged state. -/
theorem C7_sin_resultado (valid : Content → Bool)
    (crawl : String → Except String (List (String × Content)))
    (consulta nombre : String) (fs : FS)
    (hdest : lookupD fs.dests nombre = none)
    (htmp : fs.tmp = [])
    (hcrawl : crawl consulta = Except.ok []) :
    descargar_imagen valid crawl consulta nombre fs = Except.ok ⟨false, fs, 1⟩ := by
  unfold descargar_imagen
  rw [hdest]
  exact fetch_y_commit_empty crawl consulta nombre fs hcrawl htmp

/-- C7 witness: no cached `kiwi.jpg`, provider finds nothing: unresolved,
state unchanged. -/
theorem C7_sin_resultado_witness :
    descargar_imagen (fun _ => true) (fun _ => Except.ok []) "kiwi" "kiwi" ⟨[], []⟩ =
      Except.ok ⟨false, ⟨[], []⟩, 1⟩ :=
  C7_sin_resultado (fun _ => true) (fun _ => Except.ok []) "kiwi" "kiwi" ⟨[], []⟩ rfl rfl rfl

/-- C9: the transient-workspace invariant — if the workspace is empty when an
item's acquisition starts, it is empty again whenever the call returns: a
valid cache hit leaves the state untouched, a fruitless fetch leaves the
workspace as empty as the fetch left it, and a successful commit ends with
the cleanup loop deleting every remaining workspace file. -/
theorem C9_workspace_invariante (valid : Content → Bool)
    (crawl : String → Except String (List (String × Content)))
    (consulta nombre : String) (fs : FS) (r : DescargaResult)
    (htmp : fs.tmp = [])
    (h : descargar_imagen valid crawl consulta nombre fs = Except.ok r) :
    r.fs.tmp = [] := by
  rcases descargar_imagen_shapes _ _ _ _ _ _ h with ⟨hreq, _⟩ | ⟨_, _, ht⟩ | ⟨c, hreq⟩
  · rw [hreq]; exact htmp
  · exact ht
  · rw [hreq]

/-- C9 witness: a cache-hit call on an empty workspace returns with the
workspace still empty. -/
theorem C9_workspace_invariante_witness :
    (FS.mk [("kiwi", "buena")] []).tmp = [] ∧
    (DescargaResult.mk true ⟨[("kiwi", "buena")], []⟩ 0).fs.tmp = [] :=
  ⟨rfl,
   C9_workspace_invariante (fun _ => true) (fun _ => Except.ok []) "kiwi" "kiwi"
     ⟨[("kiwi", "buena")], []⟩ ⟨true, ⟨[("kiwi", "buena")], []⟩, 0⟩ rfl rfl⟩

/-- C10: when the fetch leaves one or more files in the workspace, the commit
step moves the file whose name is lexicographically smallest — the first
element of the sorted listing, below every listed name — to the destination
`<nombre>.jpg`, and deletes every other file: the workspace ends empty with
exactly that one content at the destination. -/
theorem C10_commit_menor (valid : Content → Bool)
    (crawl : String → Except String (List (String × Content)))
    (consulta nombre : String) (fs : FS) (nuevos : List (String × Content))
    (hdest : lookupD fs.dests nombre = none)
    (hcrawl : crawl consulta = Except.ok nuevos)
    (hne : fs.tmp ++ nuevos ≠ []) :
    ∃ m c, (m, c) ∈ fs.tmp ++ nuevos ∧
      (fs.tmp ++ nuevos).lookup m = some c ∧
      (∀ n ∈ (fs.tmp ++ nuevos).map Prod.fst, m ≤ n) ∧
      descargar_imagen valid crawl consulta nombre fs =
        Except.ok ⟨true, ⟨(nombre, c) :: removeD fs.dests nombre, []⟩, 1⟩ := by
  obtain ⟨m, c, h1, h2, h3, h4⟩ :=
    fetch_y_commit_nonempty crawl consulta nombre fs nuevos hcrawl hne
  refine ⟨m, c, h1, h2, h3, ?_⟩
  unfold descargar_imagen
  rw [hdest]
  exact h4

/-- C10 witness: a fetch that wrote `b.jpg` and `a.jpg`: the committed file
is the lexicographically smallest named one and nothing survives in the
workspace. -/
theorem C10_commit_menor_witness :
    ∃ m c,
      (m, c) ∈ (FS.mk [] []).tmp ++ [("b.jpg", "y"), ("a.jpg", "x")] ∧
      ((FS.mk [] []).tmp ++ [("b.jpg", "y"), ("a.jpg", "x")]).lookup m = some c ∧
      (∀ n ∈ ((FS.mk [] []).tmp ++ [("b.jpg", "y"), ("a.jpg", "x")]).map Prod.fst, m ≤ n) ∧
      descargar_imagen (fun _ => true) (fun _ => Except.ok [("b.jpg", "y"), ("a.jpg", "x")])
          "kiwi" "kiwi" ⟨[], []⟩ =
        Except.ok ⟨true, ⟨("kiwi", c) :: removeD (FS.mk [] []).dests "kiwi", []⟩, 1⟩ :=
  C10_commit_menor (fun _ => true) (fun _ => Except.ok [("b.jpg", "y"), ("a.jpg", "x")])
    "kiwi" "kiwi" ⟨[], []⟩ [("b.jpg", "y"), ("a.jpg", "x")] rfl rfl (by decide)

/-- C2 counterexample: the claim says a provider exception during fetch makes
the orchestrating loop log and continue to the next item. With a crawler
that raises on the first item of a two-item run, the whole loop — which has
no handler — aborts with that exception: the second item is never attempted
and no per-item outcome list is produced. -/
theorem C2_excepcion_aborta_cex :
    image_phase (fun _ => true) (fun _ => Except.error "ConnectionError") ["a", "b"] ⟨[], []⟩ =
      Except.error "ConnectionError" := rfl

/-- C2 (amended): a provider exception during the fetch is indeed not caught
by `descargar_imagen`; it propagates through the orchestrating loop — which
is also without a handler — and aborts the run, the remaining items never
attempted. The loop logs and continues only when the pipeline returns
`False` (no result found), not on a raised exception. -/
theorem C2_excepcion_propagada (valid : Content → Bool)
    (crawl : String → Except String (List (String × Content)))
    (e err : String) (rest : List String) (fs : FS)
    (hdest : lookupD fs.dests e = none)
    (hcrawl : crawl e = Except.error err) :
    descargar_imagen valid crawl e e fs = Except.error err ∧
    image_phase valid crawl (e :: rest) fs = Except.error err := by
  have hd : descargar_imagen valid crawl e e fs = Except.error err := by
    unfold descargar_imagen
    rw [hdest]
    unfold fetch_y_commit
    rw [hcrawl]
  refine ⟨hd, ?_⟩
  unfold image_phase
  rw [hd]

/-- C2 witness: a raising crawler on the first of two items aborts the run
with that exception. -/
theorem C2_excepcion_propagada_witness :
    descargar_imagen (fun _ => true) (fun _ => Except.error "ConnectionError")
        "tomate" "tomate" ⟨[], []⟩ = Except.error "ConnectionError" ∧
    image_phase (fun _ => true) (fun _ => Except.error "ConnectionError")
        ["tomate", "manzana"] ⟨[], []⟩ = Except.error "ConnectionError" :=
  C2_excepcion_propagada (fun _ => true) (fun _ => Except.error "ConnectionError")
    "tomate" "ConnectionError" ["manzana"] ⟨[], []⟩ rfl rfl

end ListToPDF
